import Mathlib

/-!
Verification of the nvidia-resiliency-ext attribution service against its
natural-language specification. Pure fragments of the Python source are
embedded as Lean definitions; stateful operations are embedded as explicit
state-passing functions. Components of the engine whose source is not in
the repository excerpt (the request coalescer, the file gate, the analysis
engine) are modelled from the specification text, and each such definition
says so in its doc comment.
-/

/-! ## Data model -/

/-- Error codes of the analyzer, as enumerated in the specification taxonomy
and referenced by name in examples/attribution/nvrx_attrsvc/app.py. -/
inductive ErrorCode
  | INVALID_PATH
  | OUTSIDE_ROOT
  | NOT_REGULAR
  | NOT_READABLE
  | EMPTY_FILE
  | NOT_FOUND
  | LOGS_DIR_NOT_READABLE
  | JOB_LIMIT_REACHED
  | INTERNAL_ERROR
deriving DecidableEq, Repr

/-- An analyzer error value: error code plus human message, per the data
model table of the specification. -/
structure AnalyzerError where
  error_code : ErrorCode
  message : String
deriving DecidableEq, Repr

/-- A structured analysis result; its payload is opaque to the coalescing
and posting machinery, so it is embedded as a bare identifier. -/
structure AnalysisResult where
  result_id : Nat
deriving DecidableEq, Repr

/-! ## HTTP adapter: error-code to status mapping

Embeds the dictionary ERROR_CODE_TO_HTTP_STATUS and the lookup in
raise_error from examples/attribution/nvrx_attrsvc/app.py. The Python dict
lists every member of ErrorCode, and raise_error looks the code up with
default 400; the total function below is that lookup. -/

def errorCodeToHttpStatus : ErrorCode → Nat
  | .INVALID_PATH => 400
  | .NOT_REGULAR => 400
  | .EMPTY_FILE => 400
  | .OUTSIDE_ROOT => 403
  | .NOT_READABLE => 403
  | .LOGS_DIR_NOT_READABLE => 403
  | .NOT_FOUND => 404
  | .JOB_LIMIT_REACHED => 503
  | .INTERNAL_ERROR => 500

/-! ## Result posting: ResultPoster

Embeds DataflowStats and ResultPoster.post_results from
src/nvidia_resiliency_ext/attribution/postprocessing/base.py. The injected
post function is opaque external code, so one call is embedded with the
boolean that the post function returns on that call given as data; a poster
constructed with post_fn equal to None is the none case. -/

structure DataflowStats where
  total_posts : Nat
  successful_posts : Nat
  failed_posts : Nat
deriving DecidableEq, Repr

def DataflowStats.init : DataflowStats := ⟨0, 0, 0⟩

/-- One call of ResultPoster.post_results. The argument post_fn is none when
the poster was constructed without a post function; otherwise some b where b
is the boolean the injected post function returns on this call. Returns the
updated statistics and the boolean result of the call, exactly following the
control flow of base.py lines 124-135. -/
def post_results_step (post_fn : Option Bool) (stats : DataflowStats) :
    DataflowStats × Bool :=
  let stats := { stats with total_posts := stats.total_posts + 1 }
  match post_fn with
  | none => (stats, true)
  | some success =>
    if success then
      ({ stats with successful_posts := stats.successful_posts + 1 }, true)
    else
      ({ stats with failed_posts := stats.failed_posts + 1 }, false)

/-- A finite sequence of post_results calls on a poster constructed with a
post function; the list holds the boolean the injected function returns on
each successive call. Returns the final statistics and the list of values
returned by the calls. -/
def run_posts_with_fn (returns : List Bool) (stats : DataflowStats) :
    DataflowStats × List Bool :=
  match returns with
  | [] => (stats, [])
  | b :: rest =>
    let step := post_results_step (some b) stats
    let tail := run_posts_with_fn rest step.1
    (tail.1, step.2 :: tail.2)

/-- A finite sequence of n post_results calls on a poster constructed with
no post function. -/
def run_posts_no_fn (n : Nat) (stats : DataflowStats) : DataflowStats × List Bool :=
  match n with
  | 0 => (stats, [])
  | n + 1 =>
    let step := post_results_step none stats
    let tail := run_posts_no_fn n step.1
    (tail.1, step.2 :: tail.2)

/-! ## Slack predicate and the service post hook

Embeds should_notify_slack from
src/nvidia_resiliency_ext/attribution/postprocessing/slack.py and
the function post_with_slack from
examples/attribution/nvrx_attrsvc/postprocessing.py. The dataflow.post call
and the Slack send are external effects; their outcomes enter as data, and
whether a Slack send was attempted is returned as part of the result. -/

def should_notify_slack (auto_resume : String) : Bool :=
  auto_resume == "STOP - DONT RESTART IMMEDIATE"

/-- The post hook of the attribution service. Arguments: the boolean
returned by dataflow.post, the configured bot token, the value of the
record field s_auto_resume when present, and the outcome of the Slack send
should one be attempted. Returns the boolean handed back to the caller and
whether a Slack notification was attempted, following postprocessing.py
lines 43-53. -/
def post_with_slack (dataflow_post : Bool) (slack_bot_token : String)
    (s_auto_resume : Option String) (slack_send : Bool) : Bool × Bool :=
  let success := dataflow_post
  let auto_resume := s_auto_resume.getD ""
  if slack_bot_token ≠ "" ∧ should_notify_slack auto_resume then
    let _sent := slack_send
    (success, true)
  else
    (success, false)

/-! ## RequestCoalescer

Modelled from the spec: the source of the RequestCoalescer is not in the
repository excerpt, so the state and operations below follow section 4.2 of
the specification. The map is protected by a single mutex, so concurrent
callers serialize into a sequence of map operations; the model makes each
critical section one function. A fingerprint is a natural number, a time is
a natural number. Each InFlight counts its attached waiters, the computing
caller included, since every waiter receives the broadcast outcome. -/

/-- Outcome of a compute as broadcast to waiters: a structured result or an
analyzer error. -/
inductive Outcome
  | ok (r : AnalysisResult)
  | err (e : AnalyzerError)
deriving DecidableEq, Repr

/-- Modelled from the spec: a cache entry holds the fingerprint, the result
and the creation time used for age accounting. -/
structure CacheEntry where
  fingerprint : Nat
  result : AnalysisResult
  created_time : Nat
deriving DecidableEq, Repr

/-- Modelled from the spec: an in-flight record with its fingerprint, start
time and the number of attached waiters. -/
structure InFlight where
  fingerprint : Nat
  started_time : Nat
  waiters : Nat
deriving DecidableEq, Repr

/-- Modelled from the spec: the coalescer state is a fingerprint-keyed map
with in-flight records and cache entries. -/
structure CoalescerState where
  in_flight : List InFlight
  cache : List CacheEntry
deriving DecidableEq, Repr

def CoalescerState.empty : CoalescerState := ⟨[], []⟩

/-- Modelled from the spec: evict_by_age removes cache entries whose age at
now has reached cache_ttl; an entry created at c survives while now is
strictly before c plus ttl. -/
def evict_by_age (now ttl : Nat) (s : CoalescerState) : CoalescerState :=
  { s with cache := s.cache.filter (fun e => now < e.created_time + ttl) }

/-- What the arriving caller observes: a cache hit with the cached result, a
join onto an existing in-flight compute, or the start of a new compute. -/
inductive ArriveOutcome
  | hit (r : AnalysisResult)
  | joined
  | started
deriving DecidableEq, Repr

/-- Modelled from the spec: the arrival half of get_or_compute, one critical
section. The TTL sweep runs lazily on each access; then a live cache entry
is a hit, an existing in-flight record gains a waiter, and otherwise a new
in-flight record is created with the caller as its first waiter. -/
def arrive (now ttl : Nat) (f : Nat) (s : CoalescerState) :
    CoalescerState × ArriveOutcome :=
  let s := evict_by_age now ttl s
  match s.cache.find? (fun e => e.fingerprint == f) with
  | some e => (s, .hit e.result)
  | none =>
    match s.in_flight.find? (fun i => i.fingerprint == f) with
    | some _ =>
      ({ s with
          in_flight := s.in_flight.map (fun i =>
            if i.fingerprint == f then { i with waiters := i.waiters + 1 } else i) },
        .joined)
    | none =>
      ({ s with in_flight := ⟨f, now, 1⟩ :: s.in_flight }, .started)

/-- Modelled from the spec: the entry with the oldest created_time, ties
broken by fingerprint order. -/
def olderEntry (a b : CacheEntry) : Bool :=
  a.created_time < b.created_time ||
    (a.created_time == b.created_time && a.fingerprint < b.fingerprint)

def oldestEntry (l : List CacheEntry) : Option CacheEntry :=
  l.foldl
    (fun acc e =>
      match acc with
      | none => some e
      | some m => if olderEntry e m then some e else some m)
    none

/-- Modelled from the spec: insertion of a completed entry into the cache;
any stale entry for the same fingerprint is replaced, and if the count bound
is exceeded the oldest entry is evicted. -/
def insert_entry (max_entries : Nat) (e : CacheEntry) (s : CoalescerState) :
    CoalescerState :=
  let cache1 := e :: s.cache.filter (fun c => !(c.fingerprint == e.fingerprint))
  let cache2 :=
    if max_entries < cache1.length then
      match oldestEntry cache1 with
      | some m => cache1.erase m
      | none => cache1
    else cache1
  { s with cache := cache2 }

/-- Modelled from the spec: the completion half of get_or_compute, one
critical section. The in-flight record for f is removed atomically with the
broadcast of the outcome to all its waiters; on success a cache entry is
installed in the same critical section, on error nothing is cached. The
returned list holds the outcome delivered to each waiter. -/
def resolve (now max_entries : Nat) (f : Nat) (o : Outcome) (s : CoalescerState) :
    CoalescerState × List Outcome :=
  match s.in_flight.find? (fun i => i.fingerprint == f) with
  | none => (s, [])
  | some inf =>
    let s1 := { s with in_flight := s.in_flight.filter (fun i => !(i.fingerprint == f)) }
    let s2 :=
      match o with
      | .ok r => insert_entry max_entries ⟨f, r, now⟩ s1
      | .err _ => s1
    (s2, List.replicate inf.waiters o)

/-- Modelled from the spec: snapshot_write serializes all current cache
entries, never in-flight records. -/
def snapshot_write (s : CoalescerState) : List CacheEntry := s.cache

/-- Modelled from the spec: snapshot_read on a fresh engine loads the
entries whose created_time plus cache_ttl has not elapsed at load time, each
keeping its original created_time. -/
def snapshot_read (now ttl : Nat) (snap : List CacheEntry) : CoalescerState :=
  { in_flight := [], cache := snap.filter (fun e => now < e.created_time + ttl) }

/-- Modelled from the spec: the outcome a compute attempt resolves with. A
compute that exceeds its timeout is cancelled and resolves with an
INTERNAL_ERROR describing the timeout; a failed compute resolves with an
INTERNAL_ERROR carrying the failure message. -/
inductive ComputeResult
  | completed (r : AnalysisResult)
  | failed (msg : String)
  | timed_out
deriving DecidableEq, Repr

def compute_outcome : ComputeResult → Outcome
  | .completed r => .ok r
  | .failed m => .err ⟨.INTERNAL_ERROR, m⟩
  | .timed_out => .err ⟨.INTERNAL_ERROR, "compute timed out after deadline"⟩

/-- A batch of n callers for the same fingerprint arriving while the compute
has not yet resolved: n successive critical sections of the arrival half. -/
def arrive_batch (now ttl : Nat) (f : Nat) :
    Nat → CoalescerState → CoalescerState × List ArriveOutcome
  | 0, s => (s, [])
  | n + 1, s =>
    let step := arrive now ttl f s
    let tail := arrive_batch now ttl f n step.1
    (tail.1, step.2 :: tail.2)

/-! ## FileGate and path safety

Modelled from the spec: the FileGate source is not in the repository
excerpt. Section 4.1 requires that path checks run after symlink
resolution; a path here is therefore the symlink-resolved absolute path,
represented as its list of components. The operations of the engine are
embedded with an explicit trace of file-system effects so that path safety
is a statement about every effect any sequence of calls can emit. -/

/-- Whether the resolved path p is a proper descendant of the resolved
allowed root: the root components are a prefix of p and p is not the root
itself. -/
def isProperDescendant (root p : List String) : Bool :=
  root.isPrefixOf p && !(p == root)

/-- Modelled from the spec: FileGate.validate. The descendant check runs
first and rejects with OUTSIDE_ROOT; then a missing file rejects with
NOT_FOUND. The remaining checks (regularity, readability, size) concern
file metadata and are irrelevant to the path-safety claim, so the model
stops at existence against the given file list. -/
def validate_path (root : List String) (files : List (List String))
    (p : List String) : Except AnalyzerError Unit :=
  if isProperDescendant root p then
    if files.contains p then .ok ()
    else .error ⟨.NOT_FOUND, "path not found"⟩
  else
    .error ⟨.OUTSIDE_ROOT, "path is outside the allowed root"⟩

/-- A file-system or engine effect emitted by an operation. -/
inductive Effect
  | file_read (path : List String)
  | compute_run (path : List String)
  | job_created (job_id : String)
deriving DecidableEq, Repr

/-- Modelled from the spec: submit validates the path through the FileGate
before anything else; only on success does it read the file and create a
Job. On a validation error it returns the error with no effects. -/
def submit_op (root : List String) (files : List (List String))
    (p : List String) (job_id : String) : Except AnalyzerError Unit × List Effect :=
  match validate_path root files p with
  | .error e => (.error e, [])
  | .ok _ => (.ok (), [.file_read p, .job_created job_id])

/-- Modelled from the spec: analyze validates the path through the FileGate
before anything else; only on success does it read the file and run a
compute. On a validation error it returns the error with no effects. -/
def analyze_op (root : List String) (files : List (List String))
    (p : List String) : Except AnalyzerError Unit × List Effect :=
  match validate_path root files p with
  | .error e => (.error e, [])
  | .ok _ => (.ok (), [.file_read p, .compute_run p])

/-- Modelled from the spec: preview validates the path (permitting files
below the size bound, which the model does not track) and on success reads
the head of the file. -/
def preview_op (root : List String) (files : List (List String))
    (p : List String) : Except AnalyzerError Unit × List Effect :=
  match validate_path root files p with
  | .error e => (.error e, [])
  | .ok _ => (.ok (), [.file_read p])

/-- One call in a sequence of engine operations. -/
inductive OpCall
  | submit (p : List String) (job_id : String)
  | analyze (p : List String)
  | preview (p : List String)
deriving DecidableEq, Repr

/-- The trace of effects emitted by a finite sequence of engine calls. -/
def run_ops (root : List String) (files : List (List String)) :
    List OpCall → List Effect
  | [] => []
  | .submit p j :: rest => (submit_op root files p j).2 ++ run_ops root files rest
  | .analyze p :: rest => (analyze_op root files p).2 ++ run_ops root files rest
  | .preview p :: rest => (preview_op root files p).2 ++ run_ops root files rest

/-! ## Job modes and splitlog submit and analyze

Modelled from the spec: the JobRegistry and AnalysisEngine sources are not
in the repository excerpt. Section 4.3 fixes the mode transition on submit:
when the submitted file carries a LOGS_DIR directive and a job_id is
supplied, the Job transitions to splitlog; scenario S3 fixes the shape of
the SubmitResult and the splitlog analyze response. -/

inductive JobMode
  | pending
  | single
  | splitlog
deriving DecidableEq, Repr

/-- The mode string carried in results for each job mode. -/
def JobMode.modeString : JobMode → String
  | .pending => "pending"
  | .single => "single"
  | .splitlog => "splitlog"

structure Job where
  job_id : String
  mode : JobMode
  logs_dir : Option String
deriving DecidableEq, Repr

/-- The record returned by submit. -/
structure SubmitResult where
  mode : String
  job_id : String
  logs_dir : Option String
  cycles_detected : Nat
  cycles_analyzed : Nat
deriving DecidableEq, Repr

/-- The record returned by analyze for a splitlog job. -/
structure SplitlogAnalysisResult where
  mode : String
  sched_restarts : Nat
  log_file : String
  result : AnalysisResult
deriving DecidableEq, Repr

/-- Modelled from the spec: submit inspects the file for a LOGS_DIR
directive; when one is present and a job_id is supplied the Job becomes
splitlog with the directive as its logs directory and the tracker scan
count as cycles_detected; otherwise the Job stays in the single-file path,
keyed by the log path when no job_id is given. -/
def submit_model (log_path : String) (logs_dir_directive : Option String)
    (job_id : Option String) (cycles_found : Nat) : SubmitResult × Job :=
  match logs_dir_directive, job_id with
  | some d, some j =>
    (⟨"splitlog", j, some d, cycles_found, 0⟩, ⟨j, .splitlog, some d⟩)
  | _, _ =>
    let key := job_id.getD log_path
    (⟨"single", key, none, 0, 0⟩, ⟨key, .single, none⟩)

/-- The response of analyze: a single-file result or a splitlog result. -/
inductive AnalyzeResponse
  | single (r : AnalysisResult)
  | splitlog (r : SplitlogAnalysisResult)
deriving DecidableEq, Repr

/-- The mode field carried by an analyze response: single-file results carry
the single mode, splitlog results carry their mode field. -/
def AnalyzeResponse.modeField : AnalyzeResponse → String
  | .single _ => "single"
  | .splitlog sr => sr.mode

/-- Modelled from the spec: analyze dispatches on the mode of the resolved
Job; a splitlog job resolves a cycle file through the tracker and returns a
SplitlogAnalysisResult whose mode field is the splitlog mode string, any
other job returns the single-file result. -/
def analyze_model (j : Job) (r : AnalysisResult) (sched_restarts : Nat)
    (log_file : String) : AnalyzeResponse :=
  match j.mode with
  | .splitlog => .splitlog ⟨JobMode.splitlog.modeString, sched_restarts, log_file, r⟩
  | _ => .single r

/-! ## Engine posting step

The posting half of a successful analyze. The statistics update is the
embedded ResultPoster.post_results from base.py; that the analyze call
returns its result regardless of the boolean the hook returned is modelled
from the spec (section 4.5: posting errors do not fail the analyze call). -/

/-- Modelled from the spec: after a successful compute, analyze passes the
result through the posting hook and returns the result; the boolean the
hook returns is dropped after the statistics update. -/
def analyze_post_step (r : AnalysisResult) (post_return : Bool)
    (stats : DataflowStats) : AnalysisResult × DataflowStats :=
  let step := post_results_step (some post_return) stats
  (r, step.1)

/-- Modelled from the spec: lookup is a read-only query of the cache map
and never triggers a compute or a state change. -/
def lookup (f : Nat) (s : CoalescerState) : Option CacheEntry :=
  s.cache.find? (fun e => e.fingerprint == f)

/-! ## Theorems -/

/-- C4: for every AnalyzerError surfaced through the HTTP adapter, the HTTP
status is determined solely by the error code, with INVALID_PATH,
NOT_REGULAR and EMPTY_FILE mapping to 400, OUTSIDE_ROOT, NOT_READABLE and
LOGS_DIR_NOT_READABLE mapping to 403, NOT_FOUND to 404, JOB_LIMIT_REACHED
to 503 and INTERNAL_ERROR to 500. -/
theorem C4_error_code_http_status :
    errorCodeToHttpStatus .INVALID_PATH = 400 ∧
    errorCodeToHttpStatus .NOT_REGULAR = 400 ∧
    errorCodeToHttpStatus .EMPTY_FILE = 400 ∧
    errorCodeToHttpStatus .OUTSIDE_ROOT = 403 ∧
    errorCodeToHttpStatus .NOT_READABLE = 403 ∧
    errorCodeToHttpStatus .LOGS_DIR_NOT_READABLE = 403 ∧
    errorCodeToHttpStatus .NOT_FOUND = 404 ∧
    errorCodeToHttpStatus .JOB_LIMIT_REACHED = 503 ∧
    errorCodeToHttpStatus .INTERNAL_ERROR = 500 := by
  decide

lemma run_posts_with_fn_inv (returns : List Bool) (s : DataflowStats)
    (h : s.total_posts = s.successful_posts + s.failed_posts) :
    (run_posts_with_fn returns s).1.total_posts
      = (run_posts_with_fn returns s).1.successful_posts
        + (run_posts_with_fn returns s).1.failed_posts := by
  induction returns generalizing s with
  | nil => simpa [run_posts_with_fn] using h
  | cons b rest ih =>
    cases b <;>
      simp only [run_posts_with_fn, post_results_step] <;>
      exact ih _ (by simp; omega)

lemma run_posts_with_fn_echo (returns : List Bool) (s : DataflowStats) :
    (run_posts_with_fn returns s).2 = returns := by
  induction returns generalizing s with
  | nil => rfl
  | cons b rest ih =>
    cases b <;> simp [run_posts_with_fn, post_results_step, ih]

lemma run_posts_no_fn_spec (n : Nat) (s : DataflowStats) :
    run_posts_no_fn n s
      = ({ s with total_posts := s.total_posts + n }, List.replicate n true) := by
  induction n generalizing s with
  | zero => simp [run_posts_no_fn]
  | succ n ih =>
    simp only [run_posts_no_fn, post_results_step, ih, List.replicate_succ]
    simp [Nat.add_assoc, Nat.add_comm 1 n]

/-- C9: a ResultPoster constructed with a post function keeps total_posts
equal to successful_posts plus failed_posts after any finite sequence of
post_results calls, and each call returns exactly the boolean the injected
post function returned; a ResultPoster constructed with no post function
returns true from every call, increments total_posts, and leaves
successful_posts and failed_posts at zero. -/
theorem C9_result_poster_stats (returns : List Bool) (n : Nat) :
    ((run_posts_with_fn returns DataflowStats.init).1.total_posts
      = (run_posts_with_fn returns DataflowStats.init).1.successful_posts
        + (run_posts_with_fn returns DataflowStats.init).1.failed_posts) ∧
    ((run_posts_with_fn returns DataflowStats.init).2 = returns) ∧
    ((run_posts_no_fn n DataflowStats.init).1 = ⟨n, 0, 0⟩) ∧
    ((run_posts_no_fn n DataflowStats.init).2 = List.replicate n true) := by
  refine ⟨run_posts_with_fn_inv returns _ rfl, run_posts_with_fn_echo returns _, ?_, ?_⟩
  · rw [run_posts_no_fn_spec]; simp [DataflowStats.init]
  · rw [run_posts_no_fn_spec]

/-- C8: when the posting hook of a successful analyze returns failure, the
failed-posts counter is incremented by one (and total_posts with it), the
successful-posts counter is untouched, and the analyze call still returns
its successful AnalysisResult unchanged; the posting step is a total
function, so no posting failure escapes as an exception. -/
theorem C8_post_failure_does_not_fail_analyze (r : AnalysisResult)
    (s : DataflowStats) :
    ((analyze_post_step r false s).1 = r) ∧
    ((analyze_post_step r false s).2.failed_posts = s.failed_posts + 1) ∧
    ((analyze_post_step r false s).2.total_posts = s.total_posts + 1) ∧
    ((analyze_post_step r false s).2.successful_posts = s.successful_posts) := by
  simp [analyze_post_step, post_results_step]

/-- C10: should_notify_slack holds exactly on the string
STOP - DONT RESTART IMMEDIATE, and the service post hook always returns the
boolean result of the dataflow post, attempting a Slack notification
precisely when a bot token is configured and the predicate holds on the
s_auto_resume field, with the Slack send outcome never altering the
returned value. -/
theorem C10_slack_predicate_and_hook :
    (∀ a : String,
      should_notify_slack a = true ↔ a = "STOP - DONT RESTART IMMEDIATE") ∧
    (∀ (d : Bool) (t : String) (ar : Option String) (ss : Bool),
      ((post_with_slack d t ar ss).1 = d) ∧
      ((post_with_slack d t ar ss).2 = true ↔
        (t ≠ "" ∧ should_notify_slack (ar.getD "") = true))) := by
  constructor
  · intro a
    simp [should_notify_slack]
  · intro d t ar ss
    by_cases h : t ≠ "" ∧ should_notify_slack (ar.getD "") = true
    · simp [post_with_slack, h]
    · simp [post_with_slack, h]

lemma arrive_on_empty (now ttl f : Nat) :
    arrive now ttl f CoalescerState.empty
      = (⟨[⟨f, now, 1⟩], []⟩, .started) := by
  simp [arrive, evict_by_age, CoalescerState.empty]

lemma arrive_joins (now now0 ttl k f : Nat) :
    arrive now ttl f ⟨[⟨f, now0, k⟩], []⟩
      = (⟨[⟨f, now0, k + 1⟩], []⟩, .joined) := by
  simp [arrive, evict_by_age, List.find?]

lemma arrive_batch_joins (now now0 ttl f : Nat) (m : Nat) : ∀ k : Nat,
    arrive_batch now ttl f m ⟨[⟨f, now0, k⟩], []⟩
      = (⟨[⟨f, now0, k + m⟩], []⟩, List.replicate m .joined) := by
  induction m with
  | zero => intro k; simp [arrive_batch]
  | succ m ih =>
    intro k
    simp only [arrive_batch, arrive_joins, ih (k + 1), List.replicate_succ]
    simp [Nat.add_assoc, Nat.add_comm 1 m]

lemma arrive_batch_from_empty (now ttl f n : Nat) (hn : 1 ≤ n) :
    arrive_batch now ttl f n CoalescerState.empty
      = (⟨[⟨f, now, n⟩], []⟩, .started :: List.replicate (n - 1) .joined) := by
  obtain ⟨m, rfl⟩ : ∃ m, n = m + 1 := ⟨n - 1, by omega⟩
  simp only [arrive_batch, arrive_on_empty, arrive_batch_joins now now ttl f m 1]
  simp [Nat.add_comm 1 m]

lemma resolve_err_single (now maxe f t0 w : Nat) (e : AnalyzerError) :
    resolve now maxe f (.err e) ⟨[⟨f, t0, w⟩], []⟩
      = (⟨[], []⟩, List.replicate w (.err e)) := by
  simp [resolve, List.find?]

lemma resolve_ok_single (now maxe f t0 w : Nat) (r : AnalysisResult)
    (hmax : 1 ≤ maxe) :
    resolve now maxe f (.ok r) ⟨[⟨f, t0, w⟩], []⟩
      = (⟨[], [⟨f, r, now⟩]⟩, List.replicate w (.ok r)) := by
  simp [resolve, List.find?, insert_entry]
  omega

/-- C1: a concurrent batch of n analyze calls for the same fingerprint that
starts from an empty cache with no in-flight entry serializes under the
coalescer mutex into n arrivals: exactly the first one starts a compute and
the remaining n-1 join it, so compute_fn is invoked exactly once, and when
the compute resolves every caller in the batch receives the same outcome,
success or error. -/
theorem C1_coalesced_batch (now ttl max_entries n f : Nat) (o : Outcome)
    (hn : 1 ≤ n) :
    ((arrive_batch now ttl f n CoalescerState.empty).2.count .started = 1) ∧
    ((arrive_batch now ttl f n CoalescerState.empty).2
      = .started :: List.replicate (n - 1) .joined) ∧
    ((resolve now max_entries f o
        (arrive_batch now ttl f n CoalescerState.empty).1).2
      = List.replicate n o) := by
  rw [arrive_batch_from_empty now ttl f n hn]
  refine ⟨?_, rfl, ?_⟩
  · simp [List.count_cons, List.count_replicate]
  · cases o with
    | ok r =>
      by_cases hmax : 1 ≤ max_entries
      · rw [resolve_ok_single now max_entries f now n r hmax]
      · simp [resolve, List.find?]
    | err e => rw [resolve_err_single]

/-- C1 witness: the theorem applied to a batch of three callers. -/
theorem C1_coalesced_batch_witness :
    (1 ≤ 3) ∧
    (((arrive_batch 0 5 7 3 CoalescerState.empty).2.count .started = 1) ∧
     ((arrive_batch 0 5 7 3 CoalescerState.empty).2
       = .started :: List.replicate (3 - 1) .joined) ∧
     ((resolve 0 10 7 (.ok ⟨42⟩)
         (arrive_batch 0 5 7 3 CoalescerState.empty).1).2
       = List.replicate 3 (.ok ⟨42⟩))) :=
  ⟨by decide, C1_coalesced_batch 0 5 10 3 7 (.ok ⟨42⟩) (by decide)⟩

/-- C3: when a compute exceeds its timeout, every waiter attached to the
in-flight entry receives an INTERNAL_ERROR describing the timeout, no cache
entry is created for the fingerprint, and a subsequent get_or_compute on
the same fingerprint with a succeeding compute runs a fresh compute and
caches its result: a failed compute never poisons the cache. -/
theorem C3_timeout_does_not_poison (now now2 ttl max_entries n f : Nat)
    (r : AnalysisResult) (hn : 1 ≤ n) (hmax : 1 ≤ max_entries) :
    ((resolve now max_entries f (compute_outcome .timed_out)
        (arrive_batch now ttl f n CoalescerState.empty).1).2
      = List.replicate n
          (.err ⟨.INTERNAL_ERROR, "compute timed out after deadline"⟩)) ∧
    ((resolve now max_entries f (compute_outcome .timed_out)
        (arrive_batch now ttl f n CoalescerState.empty).1).1.cache = []) ∧
    ((arrive now2 ttl f
        (resolve now max_entries f (compute_outcome .timed_out)
          (arrive_batch now ttl f n CoalescerState.empty).1).1).2
      = .started) ∧
    ((resolve now2 max_entries f (.ok r)
        (arrive now2 ttl f
          (resolve now max_entries f (compute_outcome .timed_out)
            (arrive_batch now ttl f n CoalescerState.empty).1).1).1).1.cache
      = [⟨f, r, now2⟩]) := by
  rw [arrive_batch_from_empty now ttl f n hn]
  simp only [compute_outcome, resolve_err_single]
  have hempty : (⟨[], []⟩ : CoalescerState) = CoalescerState.empty := rfl
  rw [hempty, arrive_on_empty now2 ttl f]
  simp only [resolve_ok_single now2 max_entries f now2 1 r hmax]
  simp

/-- C3 witness: the theorem applied to a batch of two callers with a
compute bound of four entries. -/
theorem C3_timeout_does_not_poison_witness :
    ((1 ≤ 2) ∧ (1 ≤ 4)) ∧
    (((resolve 9 4 3 (compute_outcome .timed_out)
         (arrive_batch 9 6 3 2 CoalescerState.empty).1).2
       = List.replicate 2
           (.err ⟨.INTERNAL_ERROR, "compute timed out after deadline"⟩)) ∧
     ((resolve 9 4 3 (compute_outcome .timed_out)
         (arrive_batch 9 6 3 2 CoalescerState.empty).1).1.cache = []) ∧
     ((arrive 11 6 3
         (resolve 9 4 3 (compute_outcome .timed_out)
           (arrive_batch 9 6 3 2 CoalescerState.empty).1).1).2
       = .started) ∧
     ((resolve 11 4 3 (.ok ⟨5⟩)
         (arrive 11 6 3
           (resolve 9 4 3 (compute_outcome .timed_out)
             (arrive_batch 9 6 3 2 CoalescerState.empty).1).1).1).1.cache
       = [⟨3, ⟨5⟩, 11⟩])) :=
  ⟨⟨by decide, by decide⟩,
    C3_timeout_does_not_poison 9 11 6 4 2 3 ⟨5⟩ (by decide) (by decide)⟩

/-- C7: for every cache state whose entries were created no later than the
snapshot instant, snapshot_write followed by snapshot_read on a fresh
engine restores exactly the set of cache entries whose age at snapshot
time was strictly below cache_ttl; entries are restored whole, so each
restored entry keeps its original created_time for age accounting. -/
theorem C7_snapshot_round_trip (now ttl : Nat) (s : CoalescerState)
    (hpast : ∀ e ∈ s.cache, e.created_time ≤ now) :
    ((snapshot_read now ttl (snapshot_write s)).in_flight = []) ∧
    (∀ e : CacheEntry,
      e ∈ (snapshot_read now ttl (snapshot_write s)).cache ↔
        (e ∈ s.cache ∧ now - e.created_time < ttl)) := by
  refine ⟨rfl, fun e => ?_⟩
  simp only [snapshot_read, snapshot_write, List.mem_filter, decide_eq_true_eq]
  constructor
  · rintro ⟨he, hlt⟩
    exact ⟨he, by have := hpast e he; omega⟩
  · rintro ⟨he, hage⟩
    exact ⟨he, by have := hpast e he; omega⟩

/-- C7 witness: the theorem applied to a two-entry cache at snapshot time
100 with a ttl of 50, where the entry created at 0 has aged out and the
entry created at 90 has not. -/
theorem C7_snapshot_round_trip_witness :
    (∀ e ∈ (⟨[], [⟨1, ⟨10⟩, 0⟩, ⟨2, ⟨20⟩, 90⟩]⟩ : CoalescerState).cache,
      e.created_time ≤ 100) ∧
    (((snapshot_read 100 50
        (snapshot_write ⟨[], [⟨1, ⟨10⟩, 0⟩, ⟨2, ⟨20⟩, 90⟩]⟩)).in_flight = []) ∧
     (∀ e : CacheEntry,
       e ∈ (snapshot_read 100 50
             (snapshot_write ⟨[], [⟨1, ⟨10⟩, 0⟩, ⟨2, ⟨20⟩, 90⟩]⟩)).cache ↔
         (e ∈ (⟨[], [⟨1, ⟨10⟩, 0⟩, ⟨2, ⟨20⟩, 90⟩]⟩ : CoalescerState).cache ∧
           100 - e.created_time < 50))) :=
  ⟨by decide, C7_snapshot_round_trip 100 50 ⟨[], [⟨1, ⟨10⟩, 0⟩, ⟨2, ⟨20⟩, 90⟩]⟩ (by decide)⟩

/-- C5: a submit of a log file that carries a LOGS_DIR directive together
with a supplied job_id returns a SubmitResult whose mode field is the
string splitlog, and an analyze on the job created by that submit returns a
result whose mode field is splitlog. -/
theorem C5_splitlog_mode (log_path d j : String) (cycles n : Nat)
    (r : AnalysisResult) (lf : String) :
    ((submit_model log_path (some d) (some j) cycles).1.mode = "splitlog") ∧
    ((analyze_model (submit_model log_path (some d) (some j) cycles).2
        r n lf).modeField = "splitlog") := by
  exact ⟨rfl, rfl⟩

/-- The exclusivity invariant of the coalescer map: no fingerprint is
carried both by an in-flight record and by a cache entry. -/
def FingerprintExclusive (s : CoalescerState) : Prop :=
  ∀ i ∈ s.in_flight, ∀ c ∈ s.cache, i.fingerprint ≠ c.fingerprint

instance (s : CoalescerState) : Decidable (FingerprintExclusive s) :=
  inferInstanceAs
    (Decidable (∀ i ∈ s.in_flight, ∀ c ∈ s.cache, i.fingerprint ≠ c.fingerprint))

lemma exclusive_evict_by_age (now ttl : Nat) (s : CoalescerState)
    (h : FingerprintExclusive s) :
    FingerprintExclusive (evict_by_age now ttl s) := by
  intro i hi c hc
  exact h i hi c (List.mem_filter.mp hc).1

lemma exclusive_arrive (now ttl f : Nat) (s : CoalescerState)
    (h : FingerprintExclusive s) :
    FingerprintExclusive (arrive now ttl f s).1 := by
  have h1 := exclusive_evict_by_age now ttl s h
  simp only [arrive]
  rcases hfc : (evict_by_age now ttl s).cache.find?
      (fun e => e.fingerprint == f) with _ | e
  · simp only [hfc]
    rcases hff : (evict_by_age now ttl s).in_flight.find?
        (fun i => i.fingerprint == f) with _ | inf
    · simp only [hff]
      intro i hi c hc
      rcases List.mem_cons.mp hi with hnew | hold
      · subst hnew
        have := List.find?_eq_none.mp hfc c hc
        simp only [beq_iff_eq] at this
        exact fun hcontra => this hcontra.symm
      · exact h1 i hold c hc
    · simp only [hff]
      intro i hi c hc
      rcases List.mem_map.mp hi with ⟨i0, hi0, hgi⟩
      have hfp : i.fingerprint = i0.fingerprint := by
        subst hgi
        by_cases hb : (i0.fingerprint == f) = true <;> simp [hb]
      rw [hfp]
      exact h1 i0 hi0 c hc
  · simp only [hfc]
    exact h1

lemma mem_cache_insert_entry (maxe : Nat) (e c : CacheEntry)
    (s : CoalescerState) (hc : c ∈ (insert_entry maxe e s).cache) :
    c = e ∨ c ∈ s.cache := by
  simp only [insert_entry] at hc
  have step : ∀ d : CacheEntry,
      d ∈ e :: s.cache.filter (fun x => !(x.fingerprint == e.fingerprint)) →
        d = e ∨ d ∈ s.cache := by
    intro d hd
    rcases List.mem_cons.mp hd with h1 | h1
    · exact Or.inl h1
    · exact Or.inr (List.mem_filter.mp h1).1
  split at hc
  · split at hc
    · exact step c (List.mem_of_mem_erase hc)
    · exact step c hc
  · exact step c hc

lemma inflight_insert_entry (maxe : Nat) (e : CacheEntry) (s : CoalescerState) :
    (insert_entry maxe e s).in_flight = s.in_flight := rfl

lemma exclusive_resolve (now maxe f : Nat) (o : Outcome) (s : CoalescerState)
    (h : FingerprintExclusive s) :
    FingerprintExclusive (resolve now maxe f o s).1 := by
  simp only [resolve]
  rcases hff : s.in_flight.find? (fun i => i.fingerprint == f) with _ | inf
  · simp only [hff]
    exact h
  · simp only [hff]
    cases o with
    | err e =>
      intro i hi c hc
      exact h i (List.mem_filter.mp hi).1 c hc
    | ok r =>
      intro i hi c hc
      rw [inflight_insert_entry] at hi
      have hif := List.mem_filter.mp hi
      have hne : i.fingerprint ≠ f := by
        have := hif.2
        simp only [Bool.not_eq_eq_eq_not, Bool.not_true, beq_eq_false_iff_ne,
          ne_eq] at this
        exact this
      rcases mem_cache_insert_entry maxe ⟨f, r, now⟩ c _ hc with h1 | h1
      · subst h1
        exact hne
      · exact h i hif.1 c h1

lemma exclusive_snapshot_read (now ttl : Nat) (snap : List CacheEntry) :
    FingerprintExclusive (snapshot_read now ttl snap) := by
  intro i hi
  simp [snapshot_read] at hi

/-- C2: the exclusivity property that a fingerprint is present in at most
one of the in-flight map and the cache is preserved by every operation of
the coalescer: the arrival half of get_or_compute, the completion half that
installs results, the age-based eviction sweep, and loading a snapshot into
a fresh engine; lookup is read-only and changes no state. -/
theorem C2_fingerprint_exclusive (now ttl max_entries f : Nat) (o : Outcome)
    (s : CoalescerState) (h : FingerprintExclusive s) :
    FingerprintExclusive (arrive now ttl f s).1 ∧
    FingerprintExclusive (resolve now max_entries f o s).1 ∧
    FingerprintExclusive (evict_by_age now ttl s) ∧
    FingerprintExclusive (snapshot_read now ttl (snapshot_write s)) :=
  ⟨exclusive_arrive now ttl f s h, exclusive_resolve now max_entries f o s h,
    exclusive_evict_by_age now ttl s h, exclusive_snapshot_read now ttl _⟩

/-- C2 witness: the theorem applied to a state holding one in-flight record
and one cache entry with distinct fingerprints. -/
theorem C2_fingerprint_exclusive_witness :
    FingerprintExclusive ⟨[⟨1, 0, 1⟩], [⟨2, ⟨9⟩, 0⟩]⟩ ∧
    (FingerprintExclusive (arrive 3 5 1 ⟨[⟨1, 0, 1⟩], [⟨2, ⟨9⟩, 0⟩]⟩).1 ∧
     FingerprintExclusive (resolve 3 10 1 (.ok ⟨7⟩) ⟨[⟨1, 0, 1⟩], [⟨2, ⟨9⟩, 0⟩]⟩).1 ∧
     FingerprintExclusive (evict_by_age 3 5 ⟨[⟨1, 0, 1⟩], [⟨2, ⟨9⟩, 0⟩]⟩) ∧
     FingerprintExclusive
       (snapshot_read 3 5 (snapshot_write ⟨[⟨1, 0, 1⟩], [⟨2, ⟨9⟩, 0⟩]⟩))) :=
  ⟨by decide,
    C2_fingerprint_exclusive 3 5 10 1 (.ok ⟨7⟩) ⟨[⟨1, 0, 1⟩], [⟨2, ⟨9⟩, 0⟩]⟩
      (by decide)⟩

lemma validate_path_ok_descendant (root : List String)
    (files : List (List String)) (p : List String) (u : Unit)
    (hok : validate_path root files p = .ok u) :
    isProperDescendant root p = true := by
  by_cases hd : isProperDescendant root p = true
  · exact hd
  · simp [validate_path, hd] at hok

lemma read_effects_safe (root : List String) (files : List (List String)) :
    ∀ (ops : List OpCall) (q : List String),
      Effect.file_read q ∈ run_ops root files ops →
        isProperDescendant root q = true := by
  intro ops
  induction ops with
  | nil => intro q hq; simp [run_ops] at hq
  | cons op rest ih =>
    intro q hq
    have hsplit : ∀ (effs : List Effect),
        Effect.file_read q ∈ effs ++ run_ops root files rest →
          Effect.file_read q ∈ effs ∨ isProperDescendant root q = true := by
      intro effs hmem
      rcases List.mem_append.mp hmem with h1 | h1
      · exact Or.inl h1
      · exact Or.inr (ih q h1)
    cases op with
    | submit p j =>
      rcases hv : validate_path root files p with e | u
      · rw [show run_ops root files (.submit p j :: rest)
            = (submit_op root files p j).2 ++ run_ops root files rest from rfl,
          show (submit_op root files p j).2 = [] by simp [submit_op, hv]] at hq
        exact ih q (by simpa using hq)
      · rw [show run_ops root files (.submit p j :: rest)
            = (submit_op root files p j).2 ++ run_ops root files rest from rfl,
          show (submit_op root files p j).2 = [.file_read p, .job_created j] by
            simp [submit_op, hv]] at hq
        rcases hsplit _ hq with h1 | h1
        · rcases List.mem_cons.mp h1 with h2 | h2
          · cases h2
            exact validate_path_ok_descendant root files q u hv
          · simp at h2
        · exact h1
    | analyze p =>
      rcases hv : validate_path root files p with e | u
      · rw [show run_ops root files (.analyze p :: rest)
            = (analyze_op root files p).2 ++ run_ops root files rest from rfl,
          show (analyze_op root files p).2 = [] by simp [analyze_op, hv]] at hq
        exact ih q (by simpa using hq)
      · rw [show run_ops root files (.analyze p :: rest)
            = (analyze_op root files p).2 ++ run_ops root files rest from rfl,
          show (analyze_op root files p).2 = [.file_read p, .compute_run p] by
            simp [analyze_op, hv]] at hq
        rcases hsplit _ hq with h1 | h1
        · rcases List.mem_cons.mp h1 with h2 | h2
          · cases h2
            exact validate_path_ok_descendant root files q u hv
          · simp at h2
        · exact h1
    | preview p =>
      rcases hv : validate_path root files p with e | u
      · rw [show run_ops root files (.preview p :: rest)
            = (preview_op root files p).2 ++ run_ops root files rest from rfl,
          show (preview_op root files p).2 = [] by simp [preview_op, hv]] at hq
        exact ih q (by simpa using hq)
      · rw [show run_ops root files (.preview p :: rest)
            = (preview_op root files p).2 ++ run_ops root files rest from rfl,
          show (preview_op root files p).2 = [.file_read p] by
            simp [preview_op, hv]] at hq
        rcases hsplit _ hq with h1 | h1
        · rcases List.mem_cons.mp h1 with h2 | h2
          · cases h2
            exact validate_path_ok_descendant root files q u hv
          · simp at h2
        · exact h1

/-- C6: over every finite sequence of submit, analyze and preview calls, no
file whose symlink-resolved absolute path is not a proper descendant of the
allowed root is ever read; an input that is not a proper descendant returns
an AnalyzerError with code OUTSIDE_ROOT from each of the three operations,
with no read, no compute and no Job-creation effect. -/
theorem C6_path_safety (root : List String) (files : List (List String))
    (ops : List OpCall) (p : List String) (job_id : String)
    (hp : isProperDescendant root p = false) :
    (∀ q : List String,
      Effect.file_read q ∈ run_ops root files ops →
        isProperDescendant root q = true) ∧
    (submit_op root files p job_id
      = (.error ⟨.OUTSIDE_ROOT, "path is outside the allowed root"⟩, [])) ∧
    (analyze_op root files p
      = (.error ⟨.OUTSIDE_ROOT, "path is outside the allowed root"⟩, [])) ∧
    (preview_op root files p
      = (.error ⟨.OUTSIDE_ROOT, "path is outside the allowed root"⟩, [])) := by
  refine ⟨read_effects_safe root files ops, ?_, ?_, ?_⟩ <;>
    simp [submit_op, analyze_op, preview_op, validate_path, hp]

/-- C6 witness: the theorem applied to a root of logs, a traversal path
that resolves outside it, and a one-call operation sequence. -/
theorem C6_path_safety_witness :
    (isProperDescendant ["logs"] ["etc", "passwd"] = false) ∧
    ((∀ q : List String,
       Effect.file_read q ∈
           run_ops ["logs"] [["logs", "a.out"]] [.analyze ["etc", "passwd"]] →
         isProperDescendant ["logs"] q = true) ∧
     (submit_op ["logs"] [["logs", "a.out"]] ["etc", "passwd"] "j1"
       = (.error ⟨.OUTSIDE_ROOT, "path is outside the allowed root"⟩, [])) ∧
     (analyze_op ["logs"] [["logs", "a.out"]] ["etc", "passwd"]
       = (.error ⟨.OUTSIDE_ROOT, "path is outside the allowed root"⟩, [])) ∧
     (preview_op ["logs"] [["logs", "a.out"]] ["etc", "passwd"]
       = (.error ⟨.OUTSIDE_ROOT, "path is outside the allowed root"⟩, []))) :=
  ⟨by decide,
    C6_path_safety ["logs"] [["logs", "a.out"]] [.analyze ["etc", "passwd"]]
      ["etc", "passwd"] "j1" (by decide)⟩
